import Mathlib

/-!
Verification of the `cineplexx_rss` repository: shallow embedding of the
state store (`state.py`), the enrichment pipeline decision logic
(`scraper.py`) and the telegram extraction engine (`telegram.py`),
together with proofs of the specified properties.

Conventions of the embedding:
* Python `dict` values coming from `json.loads` are modelled as association
  lists `List (String × Json)`; `dict.get` takes the last binding, matching
  the later-duplicate-wins semantics of building a Python dict.
* Machine text is `String`; Python string falsiness (`"" is falsy`) is
  modelled explicitly where the code relies on it.
* Fallible I/O (reading the state file, JSON parsing) is modelled by an
  explicit outcome type; exceptions caught by the code map to the failure
  constructor.
-/

/-- JSON values, as produced by Python `json.loads` and consumed by
`json.dumps`.  Numbers are modelled as integers (the state file only ever
carries strings, objects and arrays). -/
inductive Json where
  | null : Json
  | bool (b : Bool) : Json
  | num (n : Int) : Json
  | str (s : String) : Json
  | arr (elems : List Json) : Json
  | obj (fields : List (String × Json)) : Json

/-- Modelled from the spec: `models.py` is not part of `src/`; the spec's
data model gives `Candidate`/`EnrichedRecord` as `{title, referenceUrl,
description}`.  Call sites (`compute_diff`) construct `Movie(title=..,
url=..)` without a description, so `description` defaults to `""`. -/
structure Movie where
  title : String
  url : String
  description : String := ""
deriving DecidableEq, Repr

/-- `State` from `state.py`: previous snapshot (url -> title) and the
append-only event log (arbitrary JSON objects, newest last). -/
structure State where
  snapshot : List (String × String)
  events : List Json

/-- `dict` lookup over an association list: the LAST binding of the key
wins, matching how `dict(...)` and `json.loads` resolve duplicate keys. -/
def lookupLast (k : String) : List (String × α) → Option α
  | [] => none
  | (a, b) :: rest =>
    match lookupLast k rest with
    | some v => some v
    | none => if a = k then some b else none

/-- Python truthiness test on a JSON value (`None`, `False`, `0`, `""`,
`[]`, `{}` are falsy). -/
def pyFalsy : Json → Bool
  | .null => true
  | .bool b => !b
  | .num n => n == 0
  | .str s => s == ""
  | .arr xs => xs.isEmpty
  | .obj fs => fs.isEmpty

/-- Outcome of trying to read and JSON-parse the state file, the effectful
part of `load_state`.  `missing` is `not path.exists()`; `failed` is any
exception inside the `try` (unreadable file, malformed JSON, wrong shape);
`parsed j` is a successful `json.loads`. -/
inductive LoadOutcome where
  | missing : LoadOutcome
  | failed : LoadOutcome
  | parsed (j : Json) : LoadOutcome

/-- Decode the `snapshot` object into a url -> title association list.
The Python code stores whatever `json.loads` produced; the documented type
is `Dict[str, str]`, and `save_state` only ever writes string values, so
non-string values are outside the typed embedding and map to `none`. -/
def decodeSnapshotFields : List (String × Json) → Option (List (String × String))
  | [] => some []
  | (k, Json.str v) :: rest => (decodeSnapshotFields rest).map (fun l => (k, v) :: l)
  | _ => none

/-- `load_state` (state.py lines 16-36).  Missing file and any caught
exception yield the empty state; on a parsed document the code takes
`data.get("snapshot", {}) or {}` and `data.get("events", []) or []`. -/
def load_state : LoadOutcome → State
  | .missing => { snapshot := [], events := [] }
  | .failed => { snapshot := [], events := [] }
  | .parsed j =>
    match j with
    | Json.obj fields =>
      let snapRaw := (lookupLast "snapshot" fields).getD (Json.obj [])
      let snapRaw := if pyFalsy snapRaw then Json.obj [] else snapRaw
      let evRaw := (lookupLast "events" fields).getD (Json.arr [])
      let evRaw := if pyFalsy evRaw then Json.arr [] else evRaw
      match snapRaw, evRaw with
      | Json.obj sf, Json.arr es =>
        match decodeSnapshotFields sf with
        | some snap => { snapshot := snap, events := es }
        | none => { snapshot := [], events := [] }
      | _, _ => { snapshot := [], events := [] }
    | _ => { snapshot := [], events := [] }

/-- `save_state` (state.py lines 38-49), at the JSON-value level: the value
passed to `json.dumps` is `{"snapshot": state.snapshot, "events":
state.events}`.  The byte serialization itself is the Python standard
library (`json.dumps`/`json.loads` are inverse on such values) and is
outside the repository. -/
def save_state (state : State) : Json :=
  Json.obj
    [("snapshot", Json.obj (state.snapshot.map (fun p => (p.1, Json.str p.2)))),
     ("events", Json.arr state.events)]

/-- `compute_diff` (state.py lines 51-58).  `cur_map` is the dict built
from the current records (later duplicates win), `sorted(...)` sorts the
url sets ascending. -/
def compute_diff (prev_snapshot : List (String × String)) (current : List Movie) :
    List Movie × List Movie :=
  let cur_pairs := current.map (fun m => (m.url, m.title))
  let added_urls :=
    List.insertionSort (· ≤ ·)
      (((current.map Movie.url).dedup).filter (fun u => (lookupLast u prev_snapshot).isNone))
  let removed_urls :=
    List.insertionSort (· ≤ ·)
      (((prev_snapshot.map Prod.fst).dedup).filter
        (fun u => !((current.map Movie.url).contains u)))
  let added := added_urls.map (fun u => Movie.mk ((lookupLast u cur_pairs).getD "") u "")
  let removed := removed_urls.map (fun u => Movie.mk ((lookupLast u prev_snapshot).getD "") u "")
  (added, removed)

/-- The JSON object `Event(type=.., title=.., url=.., ts=.., location=..,
date=..).__dict__` appended by `append_events`.  Modelled from the spec for
the field set: `models.py` is not in `src/`; spec §6 gives the event fields
as `type, title, url, ts, location, date`. -/
def event_json (ty title url ts location date : String) : Json :=
  Json.obj
    [("type", Json.str ty), ("title", Json.str title), ("url", Json.str url),
     ("ts", Json.str ts), ("location", Json.str location), ("date", Json.str date)]

/-- `append_events` (state.py lines 60-85): append one `add` event per
added record, then one `remove` event per removed record; afterwards, if
`max_events_in_state > 0` and the log exceeds it, keep only the newest
`max_events_in_state` entries (`events[-max:]`). -/
def append_events (state : State) (added removed : List Movie)
    (ts_iso location date_str : String) (max_events_in_state : Int) : State :=
  let evs := state.events
    ++ added.map (fun m => event_json "add" m.title m.url ts_iso location date_str)
    ++ removed.map (fun m => event_json "remove" m.title m.url ts_iso location date_str)
  if max_events_in_state > 0 ∧ (evs.length : Int) > max_events_in_state then
    { state with events := evs.drop (evs.length - max_events_in_state.toNat) }
  else
    { state with events := evs }

/-- `update_snapshot` (state.py lines 87-88): wholesale replacement by the
current url -> title mapping. -/
def update_snapshot (state : State) (current : List Movie) : State :=
  { state with snapshot := current.map (fun m => (m.url, m.title)) }

/-- One step of whitespace splitting (right fold): accumulate the current
word, closing it at each whitespace character. -/
def splitWsCore (c : Char) (acc : List Char × List (List Char)) :
    List Char × List (List Char) :=
  if c.isWhitespace then
    if acc.1 = [] then ([], acc.2) else ([], acc.1 :: acc.2)
  else (c :: acc.1, acc.2)

/-- Python `str.split()` with no argument: the maximal non-whitespace runs
of the text, in order, with no empty pieces. -/
def splitWsData (l : List Char) : List (List Char) :=
  let r := l.foldr splitWsCore ([], [])
  if r.1 = [] then r.2 else r.1 :: r.2

def splitWs (s : String) : List String :=
  (splitWsData s.data).map String.mk

/-- Join words with single spaces (`" ".join(...)`). -/
def joinWithSpace : List (List Char) → List Char
  | [] => []
  | [w] => w
  | w :: ws => w ++ ' ' :: joinWithSpace ws

/-- `_normalize_space` (scraper.py lines 11-12): `re.sub(r"\s+", " ",
s).strip()` — collapse every whitespace run to a single space and strip
the ends, i.e. split on whitespace and rejoin with single spaces. -/
def normalize_space (s : String) : String :=
  String.mk (joinWithSpace (splitWsData s.data))

/-- Python `x or y` on strings (`""` is falsy). -/
def pyOrS (a b : String) : String :=
  if a = "" then b else a

/-- Python truthiness of `Optional[str]` (`None` and `""` are falsy). -/
def pyTruthyOptS : Option String → Bool
  | none => false
  | some s => s != ""

/-- A film-detail cache entry as read back by `cached.get(...)`:
`dict.get` collapses an absent key and an explicit `null` into `None`, so
every consulted field is an `Option`.  Spec data model: `{title,
description|null, fetchedAt, source, error|null}`. -/
structure CacheEntry where
  title : Option String
  description : Option String
  error : Option String
  fetched_at : Option String
  source : Option String
deriving DecidableEq, Repr

/-- What one `build_movie` invocation did: the record it produced, whether
it counted a cache hit or a miss, whether it invoked `fetch_description`,
and the single cache write it attempted (entry and TTL), if any. -/
structure BuildResult where
  movie : Movie
  cache_hit : Bool
  cache_miss : Bool
  fetch_called : Bool
  cache_write : Option (CacheEntry × Int)
deriving DecidableEq, Repr

/-- `build_movie` (scraper.py lines 154-198), with its effects reified:
`cached` is the result of `_cache_get` (`none` covers both a true miss and
a caught cache-port failure; an empty dict behaves identically to the miss
branch), `fetch_result` is the value `fetch_description` would return for
this URL (that function catches its own exceptions and returns `""`), and
`now` stands for `datetime.utcnow().isoformat()+"Z"`. -/
def build_movie (item_title item_url : String) (cached : Option CacheEntry)
    (fetch_result : String) (now : String)
    (film_cache_ttl_seconds cache_negative_ttl_seconds : Int) : BuildResult :=
  let title := normalize_space item_title
  if item_url = "" then
    { movie := { title := title, url := "", description := "" },
      cache_hit := false, cache_miss := false, fetch_called := false, cache_write := none }
  else
    let hit : Option BuildResult :=
      match cached with
      | none => none
      | some c =>
        let desc := (c.description.getD "")
        let cached_title := pyOrS (c.title.getD "") title
        if desc ≠ "" ∨ pyTruthyOptS c.error then
          some { movie := { title := pyOrS cached_title title, url := item_url,
                            description := pyOrS desc "" },
                 cache_hit := true, cache_miss := false, fetch_called := false,
                 cache_write := none }
        else none
    match hit with
    | some r => r
    | none =>
      let desc := fetch_result
      if desc ≠ "" then
        { movie := { title := title, url := item_url, description := desc },
          cache_hit := false, cache_miss := true, fetch_called := true,
          cache_write := some
            ({ title := some title, description := some desc, error := none,
               fetched_at := some now, source := some "cineplexx" },
             film_cache_ttl_seconds) }
      else
        { movie := { title := title, url := item_url, description := desc },
          cache_hit := false, cache_miss := true, fetch_called := true,
          cache_write := some
            ({ title := some title, description := none, error := some "not_found",
               fetched_at := some now, source := some "cineplexx" },
             cache_negative_ttl_seconds) }

/-- Sort key of the final `movies.sort` (scraper.py line 206):
`(m.title.lower(), m.url)` compared lexicographically. -/
def movieKey (m : Movie) : String ×ₗ String :=
  toLex (m.title.toLower, m.url)

/-- The comparison relation of the final sort. -/
def movieLe (a b : Movie) : Prop :=
  movieKey a ≤ movieKey b

instance : DecidableRel movieLe := fun a b =>
  inferInstanceAs (Decidable (movieKey a ≤ movieKey b))

instance : IsTotal Movie movieLe :=
  ⟨fun a b => le_total (movieKey a) (movieKey b)⟩

instance : IsTrans Movie movieLe :=
  ⟨fun _ _ _ h h2 => le_trans h h2⟩

/-- Post-processing of `scrape_movies` (scraper.py lines 205-206): keep
only records with truthy title and url, then a stable ascending sort by
`(title.lower(), url)`. -/
def scrape_postprocess (movies : List Movie) : List Movie :=
  List.insertionSort movieLe (movies.filter (fun m => m.title ≠ "" ∧ m.url ≠ ""))

/-- Split a character list at the first occurrence of `needle` (Python
`hay.find(needle)`): `some (before, after)` with `needle` removed, `none`
when it does not occur. -/
def breakOn (needle : List Char) : List Char → Option (List Char × List Char)
  | [] => if needle = [] then some ([], []) else none
  | c :: rest =>
    if needle.isPrefixOf (c :: rest) then some ([], (c :: rest).drop needle.length)
    else
      match breakOn needle rest with
      | some (pre, post) => some (c :: pre, post)
      | none => none

/-- Python `needle in hay` substring test. -/
def hasSubstr (hay needle : String) : Bool :=
  (breakOn needle.data hay.data).isSome

/-- The two quote characters stripped by `strip("'\"")` in
`_extract_bg_image` (single quote is `Char.ofNat 39`). -/
def isQuoteChar (c : Char) : Bool :=
  c == Char.ofNat 39 || c == Char.ofNat 34

/-- Python `.strip()` on a character list: drop whitespace at both ends. -/
def trimChars (l : List Char) : List Char :=
  ((l.dropWhile Char.isWhitespace).reverse.dropWhile Char.isWhitespace).reverse

/-- Python `s.strip("'\"")`: remove every leading/trailing quote char. -/
def stripQuotes (l : List Char) : List Char :=
  ((l.dropWhile isQuoteChar).reverse.dropWhile isQuoteChar).reverse

/-- `_TelegramHtmlParser._extract_bg_image` (telegram.py lines 65-79):
require `background-image`, take the text after the first `url(`, strip
whitespace, drop one leading quote, cut at the next `)`, and strip
whitespace and quotes. -/
def extract_bg_image (style : String) : String :=
  if !(hasSubstr style "background-image") then ""
  else
    match breakOn "url(".data style.data with
    | none => ""
    | some (_, after) =>
      let raw := trimChars after
      let raw :=
        match raw with
        | c :: rest => if isQuoteChar c then rest else raw
        | [] => raw
      let raw :=
        match breakOn [Char.ofNat 41] raw with
        | some (pre, _) => pre
        | none => raw
      String.mk (stripQuotes (trimChars raw))

/-- One in-progress record of `_TelegramHtmlParser` (`self._current`):
post id, publication timestamp, text fragments, text links, and media
entries as `(url, kind)` pairs in document order. -/
structure TgPost where
  post_id : Option String
  published : Option String
  text_parts : List String
  links : List String
  media : List (String × String)
deriving DecidableEq, Repr

/-- The mutable state of `_TelegramHtmlParser` (telegram.py lines 50-63). -/
structure PState where
  title : Option String
  description : Option String
  posts : List TgPost
  in_message : Bool
  message_depth : Int
  in_text : Bool
  text_div_depth : Int
  current : Option TgPost
deriving DecidableEq, Repr

/-- `_TelegramHtmlParser.__init__`. -/
def initPState : PState :=
  { title := none, description := none, posts := [], in_message := false,
    message_depth := 0, in_text := false, text_div_depth := 0, current := none }

/-- `attrs_dict.get(k)`: `dict(attrs)` keeps the last binding; an attribute
present without a value is `None`. -/
def getRaw (attrs : List (String × Option String)) (k : String) : Option String :=
  (lookupLast k attrs).getD none

/-- `attrs_dict.get(k, "") or ""`: absent key and valueless attribute both
collapse to the empty string. -/
def getStr (attrs : List (String × Option String)) (k : String) : String :=
  (getRaw attrs k).getD ""

def addMedia (s : PState) (url kind : String) : PState :=
  { s with current := s.current.map (fun p => { p with media := p.media ++ [(url, kind)] }) }

def addLink (s : PState) (url : String) : PState :=
  { s with current := s.current.map (fun p => { p with links := p.links ++ [url] }) }

def pushText (s : PState) (t : String) : PState :=
  { s with current := s.current.map (fun p => { p with text_parts := p.text_parts ++ [t] }) }

/-- telegram.py lines 87-93: `og:title` / `og:description` meta tags. -/
def metaStep (s : PState) (tag : String) (attrs : List (String × Option String)) : PState :=
  if tag == "meta" then
    let prop := getRaw attrs "property"
    let content := getStr attrs "content"
    if prop == some "og:title" && content != "" then { s with title := some content }
    else if prop == some "og:description" && content != "" then
      { s with description := some content }
    else s
  else s

/-- telegram.py lines 107-111: a `div` inside a message deepens the
message counter and may open the text region. -/
def divEnterStep (s : PState) (tag : String) (clsTokens : List String) : PState :=
  if s.in_message && tag == "div" then
    let s := { s with message_depth := s.message_depth + 1 }
    if clsTokens.contains "js-message_text" then
      { s with in_text := true, text_div_depth := 1 }
    else s
  else s

/-- telegram.py lines 113-114: a `div` inside the text region deepens the
text counter (this also fires for the opening `js-message_text` div
itself, which the previous step just set to depth 1). -/
def textDivStep (s : PState) (tag : String) : PState :=
  if s.in_text && tag == "div" then { s with text_div_depth := s.text_div_depth + 1 }
  else s

/-- telegram.py lines 116-118: `br` inside the text region. -/
def brStep (s : PState) (tag : String) : PState :=
  if s.in_text && tag == "br" then
    if s.current.isSome then pushText s "\n" else s
  else s

/-- telegram.py lines 120-123: `time` tag sets the publication date. -/
def timeStep (s : PState) (tag : String) (attrs : List (String × Option String)) : PState :=
  if s.in_message && tag == "time" then
    let dt := getRaw attrs "datetime"
    if pyTruthyOptS dt && s.current.isSome then
      { s with current := s.current.map (fun p => { p with published := dt }) }
    else s
  else s

/-- telegram.py lines 138-151: the trailing media blocks.  The first block
(lines 138-141, background image of a `photo_wrap` anchor) is kept
faithfully even though the anchor block of lines 125-136 returns on every
photo-wrap anchor before reaching it. -/
def mediaTailSteps (s : PState) (tag : String) (attrs : List (String × Option String))
    (cls style : String) : PState :=
  let s :=
    if s.in_message && tag == "a" && hasSubstr cls "tgme_widget_message_photo_wrap" then
      let img := extract_bg_image style
      if img != "" && s.current.isSome then addMedia s img "image" else s
    else s
  let s :=
    if s.in_message && tag == "i" && hasSubstr cls "tgme_widget_message_video_thumb" then
      let img := extract_bg_image style
      if img != "" && s.current.isSome then addMedia s img "image" else s
    else s
  if s.in_message && tag == "video" then
    let src := getStr attrs "src"
    if src != "" && s.current.isSome then addMedia s src "video" else s
  else s

/-- telegram.py lines 125-136 followed by the trailing media blocks: the
anchor block classifies an `a` tag and `return`s early on a missing href
and on photo/video-wrap and link-preview anchors; only when it falls
through does control reach the trailing blocks. -/
def anchorStep (s : PState) (tag : String) (attrs : List (String × Option String))
    (cls style : String) : PState :=
  if s.in_message && tag == "a" then
    let hrefS := (getRaw attrs "href").getD ""
    if hrefS == "" || s.current.isNone then s
    else if hasSubstr cls "tgme_widget_message_photo_wrap"
        || hasSubstr cls "tgme_widget_message_video_player" then
      addMedia s hrefS "media"
    else if hasSubstr cls "tgme_widget_message_link_preview" then
      addMedia s hrefS "link"
    else
      let s := if s.in_text then addLink s hrefS else s
      mediaTailSteps s tag attrs cls style
  else
    mediaTailSteps s tag attrs cls style

/-- `_TelegramHtmlParser.handle_starttag` (telegram.py lines 81-151). -/
def handle_starttag (s0 : PState) (tag : String)
    (attrs : List (String × Option String)) : PState :=
  let cls := getStr attrs "class"
  let clsTokens := splitWs cls
  let style := getStr attrs "style"
  let s := metaStep s0 tag attrs
  if tag == "div" && clsTokens.contains "tgme_widget_message" then
    { s with in_message := true, message_depth := 1,
             current := some { post_id := getRaw attrs "data-post", published := none,
                               text_parts := [], links := [], media := [] } }
  else
    let s := divEnterStep s tag clsTokens
    let s := textDivStep s tag
    let s := brStep s tag
    let s := timeStep s tag attrs
    anchorStep s tag attrs cls style

/-- `_TelegramHtmlParser.handle_endtag` (telegram.py lines 153-167):
decrement the matching depth counter; at or below zero, clamp to zero,
clear the flag, and (for the message counter) finalize the record. -/
def handle_endtag (s0 : PState) (tag : String) : PState :=
  let s :=
    if s0.in_text && tag == "div" then
      let d := s0.text_div_depth - 1
      if d ≤ 0 then { s0 with in_text := false, text_div_depth := 0 }
      else { s0 with text_div_depth := d }
    else s0
  if s.in_message && tag == "div" then
    let d := s.message_depth - 1
    if d ≤ 0 then
      { s with in_message := false, message_depth := 0,
               posts := s.posts ++ (match s.current with | some p => [p] | none => []),
               current := none }
    else { s with message_depth := d }
  else s

/-- `_TelegramHtmlParser.handle_data` (telegram.py lines 169-171). -/
def handle_data (s : PState) (data : String) : PState :=
  if s.in_text && s.current.isSome then pushText s data else s

/-- One token of the markup stream fed by `HTMLParser`: a start tag with
its attribute list, an end tag, or a run of text data. -/
inductive Tok where
  | start (tag : String) (attrs : List (String × Option String)) : Tok
  | close (tag : String) : Tok
  | text (data : String) : Tok

def processTok (s : PState) : Tok → PState
  | .start tag attrs => handle_starttag s tag attrs
  | .close tag => handle_endtag s tag
  | .text d => handle_data s d

/-- `parser.feed(html)`: process a whole token stream from the initial
parser state. -/
def runExtraction (toks : List Tok) : PState :=
  toks.foldl processTok initPState

/-- Scheduling state of the enrichment run, counting candidates by phase:
`pending` have not yet entered `async with semaphore`, `fetching` hold a
permit and are inside the detail-fetch body, `settled` have completed
(successfully or with a caught failure) and released their permit.
`permits` is the free count of `asyncio.Semaphore(max_film_pages_concurrency)`
(scraper.py line 45). -/
structure SemState where
  permits : Nat
  pending : Nat
  fetching : Nat
  settled : Nat
deriving DecidableEq, Repr

/-- The two scheduler transitions of `fetch_description` (scraper.py lines
93-96 and 150-152): entering `async with semaphore` consumes a free permit
(admission is only possible while a permit is free — `Semaphore.acquire`
suspends at zero), and leaving the block — on success or on the caught
exception path — returns it. -/
inductive SemStep : SemState → SemState → Prop where
  | acquire (s : SemState) (hp : 0 < s.pending) (hperm : 0 < s.permits) :
      SemStep s ⟨s.permits - 1, s.pending - 1, s.fetching + 1, s.settled⟩
  | release (s : SemState) (hf : 0 < s.fetching) :
      SemStep s ⟨s.permits + 1, s.pending, s.fetching - 1, s.settled + 1⟩

/-- Start of a run: all permits free, every candidate pending. -/
def semInit (limit candidates : Nat) : SemState :=
  { permits := limit, pending := candidates, fetching := 0, settled := 0 }

/-- States the enrichment run can be in, for any interleaving of the
cooperative scheduler. -/
def SemReachable (limit candidates : Nat) (s : SemState) : Prop :=
  Relation.ReflTransGen SemStep (semInit limit candidates) s

theorem lookupLast_eq_none_iff (u : String) (l : List (String × α)) :
    lookupLast u l = none ↔ u ∉ l.map Prod.fst := by
  induction l with
  | nil => simp [lookupLast]
  | cons p rest ih =>
    obtain ⟨a, b⟩ := p
    simp only [lookupLast, List.map_cons, List.mem_cons]
    cases h : lookupLast u rest with
    | some v =>
      have hmem : u ∈ rest.map Prod.fst := by
        by_contra hc
        rw [← ih] at hc
        simp [hc] at h
      simp [hmem]
    | none =>
      have hr : u ∉ rest.map Prod.fst := ih.mp h
      by_cases hau : a = u
      · simp [hau]
      · simp [hau, hr, Ne.symm hau]

theorem lookupLast_mem_keys {u : String} {l : List (String × α)}
    (h : u ∈ l.map Prod.fst) : ∃ v, lookupLast u l = some v := by
  cases hl : lookupLast u l with
  | none => exact absurd ((lookupLast_eq_none_iff u l).mp hl) (not_not_intro h)
  | some v => exact ⟨v, rfl⟩

theorem decodeSnapshotFields_encode (l : List (String × String)) :
    decodeSnapshotFields (l.map (fun p => (p.1, Json.str p.2))) = some l := by
  induction l with
  | nil => rfl
  | cons p rest ih => cases p; simp [decodeSnapshotFields, ih]

/-- C6: `load_state` never propagates an error: a missing state file and
any failed read/parse both yield the empty state `State{snapshot:{},
events:[]}` (and `load_state` is total — a corrupt or absent state file
never blocks a run). -/
theorem load_state_error_gives_empty_state :
    load_state LoadOutcome.missing = { snapshot := [], events := [] } ∧
    load_state LoadOutcome.failed = { snapshot := [], events := [] } :=
  ⟨rfl, rfl⟩

/-- C7: saving a `State` and loading the produced document yields an equal
`State`: the same snapshot mapping and the same event sequence in the same
order (the `json.dumps`/`json.loads` byte layer is the standard library's
inverse pair and sits between the two). -/
theorem load_save_roundtrip (s : State) :
    load_state (LoadOutcome.parsed (save_state s)) = s := by
  obtain ⟨snap, evs⟩ := s
  show load_state (LoadOutcome.parsed (save_state ⟨snap, evs⟩)) = _
  simp only [save_state, load_state, lookupLast]
  cases snap with
  | nil =>
    cases evs with
    | nil => simp [pyFalsy, decodeSnapshotFields]
    | cons e es => simp [pyFalsy, decodeSnapshotFields]
  | cons p ps =>
    have h := decodeSnapshotFields_encode (p :: ps)
    simp only [List.map_cons] at h
    cases evs with
    | nil => simp [pyFalsy, h]
    | cons e es => simp [pyFalsy, h]
theorem sorted_lt_insertionSort_of_nodup (l : List String) (h : l.Nodup) :
    (List.insertionSort (· ≤ ·) l).Sorted (· < ·) :=
  (List.sorted_insertionSort (· ≤ ·) l).lt_of_le
    (((List.perm_insertionSort (· ≤ ·) l).nodup_iff).mpr h)

theorem map_url_mk (f : String → String) (l : List String) :
    (l.map (fun u => Movie.mk (f u) u "")).map Movie.url = l := by
  induction l with
  | nil => rfl
  | cons a t ih => simp only [List.map_cons, ih]

/-- C1: `compute_diff` returns `(added, removed)` where `added` holds
exactly one record per URL occurring among the current records but absent
from the previous snapshot keys, in strictly ascending URL order, and
`removed` holds exactly one `(url, title)` pair per previous-snapshot key
absent from the current URL set, carrying the stored title, also in
strictly ascending URL order.  The embedding is a pure function, so
neither input is modified. -/
theorem compute_diff_spec (prev : List (String × String)) (current : List Movie) :
    (∀ u : String,
        u ∈ ((compute_diff prev current).1.map Movie.url) ↔
          (u ∈ current.map Movie.url ∧ lookupLast u prev = none)) ∧
    ((compute_diff prev current).1.map Movie.url).Sorted (· < ·) ∧
    (∀ m : Movie,
        m ∈ (compute_diff prev current).2 ↔
          (lookupLast m.url prev = some m.title ∧ m.url ∉ current.map Movie.url ∧
           m.description = "")) ∧
    ((compute_diff prev current).2.map Movie.url).Sorted (· < ·) := by
  simp only [compute_diff]
  refine ⟨?_, ?_, ?_, ?_⟩
  · intro u
    rw [map_url_mk]
    simp [List.mem_filter, List.mem_insertionSort, Option.isNone_iff_eq_none]
  · rw [map_url_mk]
    exact sorted_lt_insertionSort_of_nodup _
      (List.Nodup.filter _ (List.nodup_dedup _))
  · intro m
    constructor
    · intro hm
      rw [List.mem_map] at hm
      obtain ⟨u, hu, rfl⟩ := hm
      rw [List.mem_insertionSort, List.mem_filter, List.mem_dedup] at hu
      obtain ⟨hukeys, hucur⟩ := hu
      obtain ⟨v, hv⟩ := lookupLast_mem_keys hukeys
      refine ⟨by simp [hv], ?_, rfl⟩
      intro hc
      rw [Bool.not_eq_eq_eq_not, Bool.not_true, ← Bool.not_eq_true] at hucur
      exact hucur (List.elem_iff.mpr hc)
    · rintro ⟨hlk, hnotin, hdesc⟩
      rw [List.mem_map]
      refine ⟨m.url, ?_, ?_⟩
      · rw [List.mem_insertionSort, List.mem_filter, List.mem_dedup]
        refine ⟨?_, ?_⟩
        · by_contra hc
          rw [← lookupLast_eq_none_iff] at hc
          simp [hc] at hlk
        · rw [Bool.not_eq_eq_eq_not, Bool.not_true, ← Bool.not_eq_true]
          intro hcont
          exact hnotin (List.elem_iff.mp hcont)
      · obtain ⟨t, u, d⟩ := m
        simp only at hlk hdesc ⊢
        simp [hlk, hdesc]
  · rw [map_url_mk]
    exact sorted_lt_insertionSort_of_nodup _
      (List.Nodup.filter _ (List.nodup_dedup _))

/-- C2: `append_events` leaves the event log equal to the prior log
extended with one `add` event per added record in order, then one `remove`
event per removed record in order; if `max_events_in_state > 0` and the
combined length exceeds it, exactly the newest `max_events_in_state`
events remain (the result is a suffix of the combined log, so the oldest
are discarded first), and `max_events_in_state ≤ 0` never trims.  The
snapshot is untouched. -/
theorem append_events_spec (state : State) (added removed : List Movie)
    (ts_iso location date_str : String) (max_events_in_state : Int) :
    (append_events state added removed ts_iso location date_str max_events_in_state).snapshot
      = state.snapshot ∧
    (append_events state added removed ts_iso location date_str max_events_in_state).events
      <:+ (state.events
        ++ added.map (fun m => event_json "add" m.title m.url ts_iso location date_str)
        ++ removed.map (fun m => event_json "remove" m.title m.url ts_iso location date_str)) ∧
    (max_events_in_state ≤ 0 →
      (append_events state added removed ts_iso location date_str max_events_in_state).events
        = state.events
          ++ added.map (fun m => event_json "add" m.title m.url ts_iso location date_str)
          ++ removed.map (fun m => event_json "remove" m.title m.url ts_iso location date_str)) ∧
    (((state.events
        ++ added.map (fun m => event_json "add" m.title m.url ts_iso location date_str)
        ++ removed.map (fun m => event_json "remove" m.title m.url ts_iso location date_str)).length : Int)
        ≤ max_events_in_state →
      (append_events state added removed ts_iso location date_str max_events_in_state).events
        = state.events
          ++ added.map (fun m => event_json "add" m.title m.url ts_iso location date_str)
          ++ removed.map (fun m => event_json "remove" m.title m.url ts_iso location date_str)) ∧
    (0 < max_events_in_state →
      max_events_in_state
        < ((state.events
            ++ added.map (fun m => event_json "add" m.title m.url ts_iso location date_str)
            ++ removed.map (fun m => event_json "remove" m.title m.url ts_iso location date_str)).length : Int) →
      ((append_events state added removed ts_iso location date_str max_events_in_state).events.length : Int)
        = max_events_in_state) := by
  unfold append_events
  dsimp only
  split_ifs with h
  · obtain ⟨h1, h2⟩ := h
    refine ⟨rfl, List.drop_suffix _ _, ?_, ?_, ?_⟩
    · intro hle; omega
    · intro hle; omega
    · intro _ _
      simp only [List.length_drop]
      omega
  · refine ⟨rfl, List.suffix_refl _, fun _ => rfl, fun _ => rfl, ?_⟩
    intro hpos hlt
    exact absurd ⟨hpos, hlt⟩ h

/-- Witness for C2, on the spec's own example: an existing log of 3
events, 2 appended, `max_events_in_state = 3` — exactly the newest 3 of
the combined 5 remain. -/
theorem append_events_spec_witness :
    ((append_events { snapshot := [], events := [Json.num 1, Json.num 2, Json.num 3] }
        [Movie.mk "X" "u1" "", Movie.mk "Y" "u2" ""] [] "t" "loc" "d" 3).events.length : Int)
      = 3 := by
  have h := append_events_spec
    { snapshot := [], events := [Json.num 1, Json.num 2, Json.num 3] }
    [Movie.mk "X" "u1" "", Movie.mk "Y" "u2" ""] [] "t" "loc" "d" 3
  exact h.2.2.2.2 (by decide) (by decide)

theorem pyOrS_empty_right (a : String) : pyOrS a "" = a := by
  unfold pyOrS
  split_ifs with h
  · exact h.symm
  · rfl

theorem pyOrS_absorb (a b : String) : pyOrS (pyOrS a b) b = pyOrS a b := by
  unfold pyOrS
  split_ifs <;> simp_all

/-- C3: a candidate whose cache lookup returns an entry with a non-empty
description or a truthy `error` marker is a cache hit: no detail fetch, no
cache write, and the record carries the cached title (falling back to the
normalized candidate title) and the cached description (`None` on an
error-marked entry becomes the empty string) — a negative entry is reused
verbatim without re-attempting the fetch. -/
theorem build_movie_cache_hit_spec (item_title item_url : String) (c : CacheEntry)
    (fetch_result now : String) (film_ttl neg_ttl : Int)
    (hurl : item_url ≠ "")
    (hhit : c.description.getD "" ≠ "" ∨ pyTruthyOptS c.error = true) :
    build_movie item_title item_url (some c) fetch_result now film_ttl neg_ttl =
      { movie := { title := pyOrS (c.title.getD "") (normalize_space item_title),
                   url := item_url,
                   description := c.description.getD "" },
        cache_hit := true, cache_miss := false, fetch_called := false,
        cache_write := none } := by
  unfold build_movie
  rw [if_neg hurl]
  dsimp only
  rw [if_pos hhit]
  simp [pyOrS_absorb, pyOrS_empty_right]

/-- Witness for C3: a negative cache entry (no description, `error` set)
yields a hit that reuses the entry without fetching or writing. -/
theorem build_movie_cache_hit_witness :
    build_movie "Raw  Title" "https://x/film/1"
        (some { title := none, description := none, error := some "not_found",
                fetched_at := none, source := none })
        "live description" "now" 604800 3600 =
      { movie := { title := "Raw Title", url := "https://x/film/1", description := "" },
        cache_hit := true, cache_miss := false, fetch_called := false,
        cache_write := none } := by
  have h := build_movie_cache_hit_spec "Raw  Title" "https://x/film/1"
    { title := none, description := none, error := some "not_found",
      fetched_at := none, source := none }
    "live description" "now" 604800 3600 (by decide) (by decide)
  rw [h]
  decide

/-- C4: a candidate that reaches the fetch step (no qualifying cache
entry) triggers exactly one cache write: a positive entry (title and
description, no error tag) with the configured positive TTL when the fetch
returned a non-empty description, and otherwise a negative entry
(description `null`, `error` set to `not_found`) with the configured
negative TTL. -/
theorem build_movie_cache_miss_spec (item_title item_url : String)
    (cached : Option CacheEntry) (fetch_result now : String) (film_ttl neg_ttl : Int)
    (hurl : item_url ≠ "")
    (hmiss : ∀ c, cached = some c →
      c.description.getD "" = "" ∧ pyTruthyOptS c.error = false) :
    (fetch_result ≠ "" →
      build_movie item_title item_url cached fetch_result now film_ttl neg_ttl =
        { movie := { title := normalize_space item_title, url := item_url,
                     description := fetch_result },
          cache_hit := false, cache_miss := true, fetch_called := true,
          cache_write := some
            ({ title := some (normalize_space item_title),
               description := some fetch_result, error := none,
               fetched_at := some now, source := some "cineplexx" }, film_ttl) }) ∧
    (fetch_result = "" →
      build_movie item_title item_url cached fetch_result now film_ttl neg_ttl =
        { movie := { title := normalize_space item_title, url := item_url,
                     description := fetch_result },
          cache_hit := false, cache_miss := true, fetch_called := true,
          cache_write := some
            ({ title := some (normalize_space item_title),
               description := none, error := some "not_found",
               fetched_at := some now, source := some "cineplexx" }, neg_ttl) }) := by
  unfold build_movie
  rw [if_neg hurl]
  cases cached with
  | none =>
    dsimp only
    constructor
    · intro hne
      rw [if_pos hne]
    · intro heq
      subst heq
      simp
  | some c =>
    obtain ⟨hd, he⟩ := hmiss c rfl
    dsimp only
    rw [if_neg (by simp [hd, he])]
    constructor
    · intro hne
      rw [if_pos hne]
    · intro heq
      subst heq
      simp

/-- Witness for C4: an empty fetch result produces exactly one write, a
negative entry carrying the `not_found` error tag and the negative TTL. -/
theorem build_movie_cache_miss_witness :
    build_movie "Some Film" "https://x/film/2" none "" "now" 604800 3600 =
      { movie := { title := "Some Film", url := "https://x/film/2", description := "" },
        cache_hit := false, cache_miss := true, fetch_called := true,
        cache_write := some
          ({ title := some "Some Film", description := none, error := some "not_found",
             fetched_at := some "now", source := some "cineplexx" }, 3600) } := by
  have h := (build_movie_cache_miss_spec "Some Film" "https://x/film/2" none "" "now"
    604800 3600 (by decide) (fun c hc => by cases hc)).2 rfl
  rw [h]
  decide

/-- C5: the record list returned by the enrichment pipeline contains only
records with non-empty title and URL (exactly the surviving input
records), and is sorted ascending by the pair (lower-cased title, URL). -/
theorem scrape_postprocess_spec (movies : List Movie) :
    (scrape_postprocess movies).Sorted movieLe ∧
    (∀ m : Movie, m ∈ scrape_postprocess movies ↔
      (m ∈ movies ∧ m.title ≠ "" ∧ m.url ≠ "")) := by
  constructor
  · exact List.sorted_insertionSort movieLe _
  · intro m
    unfold scrape_postprocess
    rw [List.mem_insertionSort, List.mem_filter]
    simp

/-- The depth/flag invariant of the extraction engine: a cleared flag
comes with a zero counter, a set flag with a counter of at least one. -/
def depthInv (s : PState) : Prop :=
  (s.in_message = false → s.message_depth = 0) ∧
  (s.in_message = true → 1 ≤ s.message_depth) ∧
  (s.in_text = false → s.text_div_depth = 0) ∧
  (s.in_text = true → 1 ≤ s.text_div_depth)

/-- Two parser states with identical flags and depth counters. -/
def sameDepths (a b : PState) : Prop :=
  a.in_message = b.in_message ∧ a.message_depth = b.message_depth ∧
  a.in_text = b.in_text ∧ a.text_div_depth = b.text_div_depth

theorem sameDepths_refl (s : PState) : sameDepths s s :=
  ⟨rfl, rfl, rfl, rfl⟩

theorem sameDepths_trans {a b c : PState} (h1 : sameDepths a b) (h2 : sameDepths b c) :
    sameDepths a c := by
  obtain ⟨x1, x2, x3, x4⟩ := h1
  obtain ⟨y1, y2, y3, y4⟩ := h2
  exact ⟨x1.trans y1, x2.trans y2, x3.trans y3, x4.trans y4⟩

theorem depthInv_congr {a b : PState} (h : sameDepths a b) (hb : depthInv b) :
    depthInv a := by
  obtain ⟨h1, h2, h3, h4⟩ := h
  obtain ⟨i1, i2, i3, i4⟩ := hb
  unfold depthInv
  rw [h1, h2, h3, h4]
  exact ⟨i1, i2, i3, i4⟩

theorem addMedia_sameDepths (s : PState) (u k : String) :
    sameDepths (addMedia s u k) s :=
  ⟨rfl, rfl, rfl, rfl⟩

theorem addLink_sameDepths (s : PState) (u : String) :
    sameDepths (addLink s u) s :=
  ⟨rfl, rfl, rfl, rfl⟩

theorem pushText_sameDepths (s : PState) (t : String) :
    sameDepths (pushText s t) s :=
  ⟨rfl, rfl, rfl, rfl⟩

theorem metaStep_sameDepths (s : PState) (tag : String)
    (attrs : List (String × Option String)) :
    sameDepths (metaStep s tag attrs) s := by
  unfold metaStep
  dsimp only
  split_ifs <;> exact ⟨rfl, rfl, rfl, rfl⟩

theorem brStep_sameDepths (s : PState) (tag : String) :
    sameDepths (brStep s tag) s := by
  unfold brStep
  split_ifs <;> exact ⟨rfl, rfl, rfl, rfl⟩

theorem timeStep_sameDepths (s : PState) (tag : String)
    (attrs : List (String × Option String)) :
    sameDepths (timeStep s tag attrs) s := by
  unfold timeStep
  dsimp only
  split_ifs <;> exact ⟨rfl, rfl, rfl, rfl⟩

theorem mediaTailSteps_sameDepths (s : PState) (tag : String)
    (attrs : List (String × Option String)) (cls style : String) :
    sameDepths (mediaTailSteps s tag attrs cls style) s := by
  unfold mediaTailSteps
  dsimp only
  split_ifs <;> exact ⟨rfl, rfl, rfl, rfl⟩

theorem anchorStep_sameDepths (s : PState) (tag : String)
    (attrs : List (String × Option String)) (cls style : String) :
    sameDepths (anchorStep s tag attrs cls style) s := by
  unfold anchorStep
  dsimp only
  split_ifs <;>
    first
      | exact sameDepths_refl _
      | exact ⟨rfl, rfl, rfl, rfl⟩
      | exact mediaTailSteps_sameDepths _ _ _ _ _

theorem divEnterStep_depthInv {s : PState} (h : depthInv s) (tag : String)
    (clsTokens : List String) : depthInv (divEnterStep s tag clsTokens) := by
  obtain ⟨t, d, p, im, md, it, td, cu⟩ := s
  obtain ⟨i1, i2, i3, i4⟩ := h
  simp only at i1 i2 i3 i4
  unfold divEnterStep
  dsimp only
  split_ifs with h1 h2 <;>
    simp only [Bool.and_eq_true, beq_iff_eq] at * <;>
    unfold depthInv <;>
    dsimp only <;>
    refine ⟨?_, ?_, ?_, ?_⟩ <;> intro hx <;> simp_all <;> omega

theorem textDivStep_depthInv {s : PState} (h : depthInv s) (tag : String) :
    depthInv (textDivStep s tag) := by
  obtain ⟨t, d, p, im, md, it, td, cu⟩ := s
  obtain ⟨i1, i2, i3, i4⟩ := h
  simp only at i1 i2 i3 i4
  unfold textDivStep
  dsimp only
  split_ifs with h1 <;>
    simp only [Bool.and_eq_true, beq_iff_eq] at * <;>
    unfold depthInv <;>
    dsimp only <;>
    refine ⟨?_, ?_, ?_, ?_⟩ <;> intro hx <;> simp_all <;> omega

theorem handle_starttag_depthInv {s : PState} (h : depthInv s) (tag : String)
    (attrs : List (String × Option String)) :
    depthInv (handle_starttag s tag attrs) := by
  have hmeta : depthInv (metaStep s tag attrs) :=
    depthInv_congr (metaStep_sameDepths s tag attrs) h
  unfold handle_starttag
  dsimp only
  split_ifs with h1
  · obtain ⟨m1, m2, m3, m4⟩ := hmeta
    refine ⟨?_, ?_, ?_, ?_⟩ <;> dsimp only
    · intro hf; cases hf
    · intro _; exact le_refl 1
    · exact m3
    · exact m4
  · have h2 := divEnterStep_depthInv hmeta tag (splitWs (getStr attrs "class"))
    have h3 := textDivStep_depthInv h2 tag
    have h4 := depthInv_congr (brStep_sameDepths _ tag) h3
    have h5 := depthInv_congr (timeStep_sameDepths _ tag attrs) h4
    exact depthInv_congr (anchorStep_sameDepths _ tag attrs _ _) h5

theorem handle_endtag_depthInv {s : PState} (h : depthInv s) (tag : String) :
    depthInv (handle_endtag s tag) := by
  obtain ⟨t, d, p, im, md, it, td, cu⟩ := s
  obtain ⟨i1, i2, i3, i4⟩ := h
  simp only at i1 i2 i3 i4
  unfold handle_endtag
  dsimp only
  split_ifs <;>
    simp only [Bool.and_eq_true, beq_iff_eq] at * <;>
    unfold depthInv <;>
    dsimp only <;>
    refine ⟨?_, ?_, ?_, ?_⟩ <;> intro hx <;> simp_all <;> omega

theorem handle_data_depthInv {s : PState} (h : depthInv s) (data : String) :
    depthInv (handle_data s data) := by
  unfold handle_data
  split_ifs with h1
  · exact depthInv_congr (pushText_sameDepths s data) h
  · exact h

theorem processTok_depthInv {s : PState} (h : depthInv s) (t : Tok) :
    depthInv (processTok s t) := by
  cases t with
  | start tag attrs => exact handle_starttag_depthInv h tag attrs
  | close tag => exact handle_endtag_depthInv h tag
  | text d => exact handle_data_depthInv h d

theorem foldl_depthInv (toks : List Tok) :
    ∀ s : PState, depthInv s → depthInv (toks.foldl processTok s) := by
  induction toks with
  | nil => exact fun s h => h
  | cons t rest ih => exact fun s h => ih _ (processTok_depthInv h t)

theorem initPState_depthInv : depthInv initPState := by
  unfold depthInv initPState
  refine ⟨?_, ?_, ?_, ?_⟩ <;> intro hx
  · rfl
  · cases hx
  · rfl
  · cases hx

/-- C9: for every token stream — including streams with unmatched or
unbalanced closing tags — the record-container depth counter and the
text-region depth counter of the extraction engine are never negative
after processing any token, and whenever a counter has been clamped (flag
cleared) it is exactly zero.  `runExtraction` is total, so malformed input
can never abort extraction. -/
theorem extraction_depths_never_negative (toks : List Tok) :
    0 ≤ (runExtraction toks).message_depth ∧
    0 ≤ (runExtraction toks).text_div_depth ∧
    ((runExtraction toks).in_message = false → (runExtraction toks).message_depth = 0) ∧
    ((runExtraction toks).in_text = false → (runExtraction toks).text_div_depth = 0) := by
  have h : depthInv (runExtraction toks) :=
    foldl_depthInv toks initPState initPState_depthInv
  obtain ⟨i1, i2, i3, i4⟩ := h
  refine ⟨?_, ?_, i1, i3⟩
  · cases hm : (runExtraction toks).in_message with
    | false => rw [i1 hm]
    | true => have := i2 hm; omega
  · cases hm : (runExtraction toks).in_text with
    | false => rw [i3 hm]
    | true => have := i4 hm; omega

/-- C8 (counter-evidence): a message containing two `photo_wrap` anchors
whose `background-image` styles carry `1.jpg` and `2.jpg` in document
order.  `_extract_bg_image` does recover both URLs from the styles, but
the emitted record's media list holds only `media`-kind entries with the
anchors' hrefs and no `image`-kind entry at all: the anchor block
(telegram.py lines 125-136) returns on every photo-wrap anchor before the
image-extraction block of lines 138-141 can run, so that block is dead
code.  The repository's own test (tests/test_telegram_parser_images.py)
expects `[1.jpg, 2.jpg]` as `image` entries from such input. -/
theorem telegram_photo_wrap_images_dropped :
    extract_bg_image "background-image:url(\"https://img/1.jpg\")" = "https://img/1.jpg" ∧
    extract_bg_image "background-image:url(\"https://img/2.jpg\")" = "https://img/2.jpg" ∧
    (runExtraction
      [Tok.start "div" [("class", some "tgme_widget_message js-widget_message"),
                        ("data-post", some "chan/1")],
       Tok.start "a" [("class", some "tgme_widget_message_photo_wrap"),
                      ("href", some "https://t.me/chan/1?single"),
                      ("style", some "background-image:url(\"https://img/1.jpg\")")],
       Tok.start "a" [("class", some "tgme_widget_message_photo_wrap"),
                      ("href", some "https://t.me/chan/2?single"),
                      ("style", some "background-image:url(\"https://img/2.jpg\")")],
       Tok.close "div"]).posts =
      [{ post_id := some "chan/1", published := none, text_parts := [], links := [],
         media := [("https://t.me/chan/1?single", "media"),
                   ("https://t.me/chan/2?single", "media")] }] := by
  refine ⟨by decide, by decide, by decide⟩

/-- Permit/fetch conservation: in every reachable scheduling state the
free permits and the active fetches sum to the configured limit. -/
theorem semReachable_invariant (limit candidates : Nat) (s : SemState)
    (h : SemReachable limit candidates s) : s.permits + s.fetching = limit := by
  induction h with
  | refl => rfl
  | tail _ hstep ih =>
    cases hstep with
    | acquire hp hperm => dsimp only; omega
    | release hf => dsimp only; omega

/-- C10: with concurrency limit `L ≥ 1`, for any number of candidates and
any interleaving of the cooperative scheduler, the number of
simultaneously active detail-fetch invocations never exceeds `L`:
admission is gated by the counting permit pool of
`asyncio.Semaphore(max_film_pages_concurrency)`, and each permit is
released when its fetch settles. -/
theorem fetch_concurrency_bounded (limit candidates : Nat) (s : SemState)
    (hL : 1 ≤ limit) (h : SemReachable limit candidates s) :
    s.fetching ≤ limit := by
  have hinv := semReachable_invariant limit candidates s h
  omega

/-- Witness for C10: limit 2, three candidates, the state after two
admissions (both permits taken, two fetches active) is reachable and
respects the bound. -/
theorem fetch_concurrency_bounded_witness :
    1 ≤ 2 ∧
    ({ permits := 0, pending := 1, fetching := 2, settled := 0 } : SemState).fetching ≤ 2 := by
  have h1 : SemStep (semInit 2 3)
      { permits := 1, pending := 2, fetching := 1, settled := 0 } :=
    SemStep.acquire (semInit 2 3) (by decide) (by decide)
  have h2 : SemStep { permits := 1, pending := 2, fetching := 1, settled := 0 }
      ({ permits := 0, pending := 1, fetching := 2, settled := 0 } : SemState) :=
    SemStep.acquire { permits := 1, pending := 2, fetching := 1, settled := 0 }
      (by decide) (by decide)
  have hreach : SemReachable 2 3
      { permits := 0, pending := 1, fetching := 2, settled := 0 } :=
    Relation.ReflTransGen.tail (Relation.ReflTransGen.tail Relation.ReflTransGen.refl h1) h2
  exact ⟨by decide, fetch_concurrency_bounded 2 3 _ (by decide) hreach⟩
